import Mathlib

/-!
Shallow embedding of the loot (chest) module of a role-playing game
(`src/item/chest.rs`), together with proofs of properties of its
operations: chest generation, battle loot, defeat drop, pickup, merge
and the unique ring pool.

Randomness is embedded as an explicit oracle: every call the Rust code
makes into the randomizer (boolean chance rolls, weighted choices) is a
field of the `Oracle` structure that the functions consume
deterministically.  Weighted selection over a table with all-positive
weights can return any entry, so the oracle supplies the chosen index.
-/

/-- Modelled from the spec: rings (module `item/ring`, outside the given
sources) are one-of-a-kind reward items identified by their kind; the
pool holds at most one instance per kind. -/
structure RingItem where
  kind : Nat
deriving DecidableEq

/-- Equipment category: the code has `Equipment::sword` and
`Equipment::shield` constructors. -/
inductive EqCat where
  | sword
  | shield
deriving DecidableEq

/-- Modelled from the spec: equipment (module `item/equipment`, outside
the given sources) is a category plus an integer power level. -/
structure Equipment where
  cat : EqCat
  level : Int
deriving DecidableEq

def Equipment.sword (level : Int) : Equipment := ⟨EqCat.sword, level⟩

def Equipment.shield (level : Int) : Equipment := ⟨EqCat.shield, level⟩

/-- Modelled from the spec: `Equipment::is_upgrade_from` (module
`item/equipment`, outside the given sources): a candidate is an upgrade
when nothing is currently held, or when its level strictly exceeds the
current level — equal levels are not an upgrade. -/
def Equipment.is_upgrade_from (e : Equipment) (current : Option Equipment) : Bool :=
  match current with
  | none => true
  | some c => decide (c.level < e.level)

/-- Modelled from the spec: item identity keys (module `item/key`,
outside the given sources), one per item kind, with rings keyed by their
ring kind. -/
inductive Key where
  | sword
  | shield
  | potion
  | remedy
  | escape
  | ether
  | stoneHealth
  | stoneMagic
  | stonePower
  | stoneSpeed
  | stoneLevel
  | ring (r : RingItem)
deriving DecidableEq

/-- The closed set of item variants the chest module produces or moves:
leveled potion, remedy, escape, leveled ether, the stat/level stones and
rings (rings become regular items once dropped). -/
inductive Item where
  | potion (level : Int)
  | remedy
  | escape
  | ether (level : Int)
  | stoneHealth
  | stoneMagic
  | stonePower
  | stoneSpeed
  | stoneLevel
  | ring (r : RingItem)
deriving DecidableEq

/-- Modelled from the spec: each item variant's stable identity key
(`Item::key`, outside the given sources); leveled variants share one key
per kind. -/
def Item.key : Item → Key
  | .potion _ => .potion
  | .remedy => .remedy
  | .escape => .escape
  | .ether _ => .ether
  | .stoneHealth => .stoneHealth
  | .stoneMagic => .stoneMagic
  | .stonePower => .stonePower
  | .stoneSpeed => .stoneSpeed
  | .stoneLevel => .stoneLevel
  | .ring r => .ring r

/-- `Chest`: a bag of items that can be picked up by the hero
(`struct Chest` in `chest.rs`): an item multiset (list), at most one
sword, at most one shield, and a gold amount. -/
structure Chest where
  items : List Item
  sword : Option Equipment
  shield : Option Equipment
  gold : Int
deriving DecidableEq

/-- `Default for Chest` in `chest.rs`: empty items, no equipment, zero
gold. -/
def Chest.defaultChest : Chest :=
  { gold := 0, sword := none, shield := none, items := [] }

/-- The player fields the chest module reads or writes.  The boolean
modifier queries (`enemies_evaded`, `double_chests`) and `rounded_level`
live in the player module outside the given sources; they are modelled
from the spec as the context flags "rewards suppressed" and
"double-chance" and a level value used for item scaling. -/
structure Player where
  level : Int
  roundedLevel : Int
  enemiesEvaded : Bool
  doubleChests : Bool
  sword : Option Equipment
  shield : Option Equipment
  left_ring : Option RingItem
  right_ring : Option RingItem
deriving DecidableEq

/-- The game-state fields the chest module reads or writes.  Modelled
from the spec: the inventory (a mapping from item identity to count,
kept here as the multiset of stored items), the gold balance, the
depletable ring pool (a set, kept as a duplicate-free list), and the
location's distance-from-home magnitude. -/
structure Game where
  player : Player
  gold : Int
  inventory : List Item
  ring_pool : List RingItem
  distance : Int
deriving DecidableEq

/-- The randomness consumed by one generation attempt, plus the
player's gold-scaling function.  `goldGained` is modelled from the
spec: `Player::gold_gained` (player module, outside the given sources)
maps `player level + distance` to a gold amount. -/
structure Oracle where
  goldRoll1 : Bool
  goldRoll2 : Bool
  equipRoll1 : Bool
  equipRoll2 : Bool
  ringRoll1 : Bool
  ringRoll2 : Bool
  itemRoll : Nat → Bool
  itemChoice : Nat → Nat
  equipChoice : Nat
  ringChoice : Nat
  goldGained : Int → Int

/-- `maybe_upgrade` in `chest.rs`: takes the candidate out of `other`
(always emptying it), replaces `current` when the candidate is an
upgrade, and reports whether an upgrade happened.  Returns the new
`current`, the new `other`, and the flag. -/
def maybe_upgrade (current other : Option Equipment) :
    Option Equipment × Option Equipment × Bool :=
  match other with
  | some e =>
      if e.is_upgrade_from current then (some e, none, true)
      else (current, none, false)
  | none => (current, none, false)

/-- `random_equipment` in `chest.rs`: the weighted table
`[(100, sword at base), (80, shield at base), (30, sword at base+5),
(20, shield at base+5), (1, sword at 100)]` with
`base = max(1, (distance / 5) * 5)` (Rust `/` on `i32` truncates toward
zero, hence `Int.tdiv`).  All five weights are positive, so the weighted
selection can return any entry; the oracle's choice index (mod 5) picks
the entry. -/
def random_equipment (distance : Int) (choice : Nat) :
    Option Equipment × Option Equipment :=
  let level := max 1 (Int.tdiv distance 5 * 5)
  match choice % 5 with
  | 0 => (some (Equipment.sword level), none)
  | 1 => (none, some (Equipment.shield level))
  | 2 => (some (Equipment.sword (level + 5)), none)
  | 3 => (none, some (Equipment.shield (level + 5)))
  | _ => (some (Equipment.sword 100), none)

/-- `random_item` in `chest.rs`: the weighted table
`[(150, Potion), (10, Remedy), (10, Escape), (50, Ether), (5, stone
Health), (5, stone Magic), (5, stone Power), (5, stone Speed),
(1, stone Level)]`; all nine weights are positive, so the oracle's
choice index (mod 9) picks the entry. -/
def random_item (level : Int) (choice : Nat) : Item :=
  match choice % 9 with
  | 0 => .potion level
  | 1 => .remedy
  | 2 => .escape
  | 3 => .ether level
  | 4 => .stoneHealth
  | 5 => .stoneMagic
  | 6 => .stonePower
  | 7 => .stoneSpeed
  | _ => .stoneLevel

/-- `random_ring` in `chest.rs`: choose one ring uniformly from the
pool and take (remove) it; on an empty pool return absence and leave
the pool unchanged.  The uniform choice is the oracle's index modulo
the pool size. -/
def random_ring (choice : Nat) (pool : List RingItem) :
    Option RingItem × List RingItem :=
  match pool with
  | [] => (none, [])
  | x :: xs =>
      let r := (x :: xs).get ⟨choice % (xs.length + 1), Nat.mod_lt _ (Nat.succ_pos _)⟩
      (some r, (x :: xs).erase r)

/-- The ring branch of `Chest::generate`: when the ring roll succeeded,
draw from the pool; a successful draw puts the ring into the chest's
items and keeps the flag, an empty pool clears the flag (the draw does
not count as having found a ring).  Returns the ring items, the final
ring-found flag, and the resulting pool. -/
def ringPhase (choice : Nat) (pool : List RingItem) (ringRoll : Bool) :
    List Item × Bool × List RingItem :=
  if ringRoll then
    match random_ring choice pool with
    | (some r, p) => ([Item.ring r], true, p)
    | (none, p) => ([], false, p)
  else ([], false, pool)

/-- The item loop of `Chest::generate`: attempts `0, 1, ..., n-1` in
order; each successful roll appends one weighted random item. -/
def itemPhase (o : Oracle) (level : Int) : Nat → List Item
  | 0 => []
  | n + 1 =>
      itemPhase o level n ++
        (if o.itemRoll n then [random_item level (o.itemChoice n)] else [])

/-- The `item_chest` flag of the item loop: whether any of the first `n`
attempts rolled a success. -/
def anyItem (o : Oracle) : Nat → Bool
  | 0 => false
  | n + 1 => anyItem o n || o.itemRoll n

/-- The chest built by the body of `Chest::generate`: gold if the gold
roll succeeded, equipment from the weighted table if the equipment roll
succeeded, then the ring branch's items followed by the item loop's. -/
def assembleChest (o : Oracle) (g : Game)
    (gold_chest equipment_chest ring_roll : Bool) (attempts : Nat) : Chest :=
  { items := (ringPhase o.ringChoice g.ring_pool ring_roll).1
      ++ itemPhase o g.player.roundedLevel attempts
  , sword := (if equipment_chest then random_equipment g.distance o.equipChoice
              else (none, none)).1
  , shield := (if equipment_chest then random_equipment g.distance o.equipChoice
               else (none, none)).2
  , gold := if gold_chest then o.goldGained (g.player.level + g.distance) else 0 }

/-- The body of `Chest::generate` after the two early gates, with the
three category flags (post double-chance) and the attempt count as
arguments: return the assembled chest only if some category succeeded
(`None` instead of an empty chest, with the ring flag cleared by the
ring branch when the pool was empty); the pool mutation performed by the
ring branch stays either way, exactly as the in-place mutation does in
the Rust code. -/
def assemble (o : Oracle) (g : Game)
    (gold_chest equipment_chest ring_roll : Bool) (attempts : Nat) :
    Option Chest × Game :=
  (if gold_chest || equipment_chest || anyItem o attempts
      || (ringPhase o.ringChoice g.ring_pool ring_roll).2.1 then
     some (assembleChest o g gold_chest equipment_chest ring_roll attempts)
   else none,
   { g with ring_pool := (ringPhase o.ringChoice g.ring_pool ring_roll).2.2 })

/-- `Chest::generate` in `chest.rs`: return absence when rewards are
suppressed (evade ring), or when the player's level exceeds the
distance magnitude plus 10; otherwise roll each category (rolling each
a second time, and doubling the item attempts, under the double-chance
modifier) and assemble the chest. -/
def generate (o : Oracle) (g : Game) : Option Chest × Game :=
  if g.player.enemiesEvaded then (none, g)
  else if g.distance + 10 < g.player.level then (none, g)
  else if g.player.doubleChests then
    assemble o g (o.goldRoll1 || o.goldRoll2) (o.equipRoll1 || o.equipRoll2)
      (o.ringRoll1 || o.ringRoll2) 6
  else assemble o g o.goldRoll1 o.equipRoll1 o.ringRoll1 3

/-- `Chest::battle_loot` in `chest.rs`: reuse `generate` but zero the
gold of the resulting chest. -/
def battle_loot (o : Oracle) (g : Game) : Option Chest × Game :=
  match generate o g with
  | (some c, gFinal) => (some { c with gold := 0 }, gFinal)
  | (none, gFinal) => (none, gFinal)

/-- The equipped rings of a player as chest items, left slot first, as
`Chest::drop` pushes them. -/
def ringItemsOf (p : Player) : List Item :=
  (match p.left_ring with | some r => [Item.ring r] | none => []) ++
    (match p.right_ring with | some r => [Item.ring r] | none => [])

/-- `Chest::drop` in `chest.rs`: drain the hero's inventory, take the
equipped sword and shield, push any equipped rings as items, capture the
gold and zero it on the game; return the chest and the updated game. -/
def Chest.drop (g : Game) : Chest × Game :=
  ({ items := g.inventory ++ ringItemsOf g.player
   , sword := g.player.sword
   , shield := g.player.shield
   , gold := g.gold },
   { g with
      gold := 0
      inventory := []
      player := { g.player with
                    sword := none, shield := none,
                    left_ring := none, right_ring := none } })

/-- Number of items with identity key `k` in a list (the per-key count
of the inventory or of a tally). -/
def countKey (items : List Item) (k : Key) : Nat :=
  (items.filter (fun i => i.key = k)).length

/-- Overwrite one entry of a tally map (Rust `HashMap::insert`). -/
def setCount (m : Key → Int) (k : Key) (v : Int) : Key → Int :=
  fun q => if q = k then v else m q

/-- Increment one entry of a tally map (Rust
`*map.entry(k).or_insert(0) += 1`). -/
def bumpCount (m : Key → Int) (k : Key) : Key → Int :=
  fun q => if q = k then m k + 1 else m q

/-- Result of `Chest::pick_up`: the per-key tally and gold amount it
returns, plus the chest and game states it leaves behind. -/
structure PickUpResult where
  counts : Key → Int
  gold : Int
  chest : Chest
  game : Game

/-- `Chest::pick_up` in `chest.rs`: upgrade the hero's sword and shield
from the chest when strictly better (recording a count of 1 under the
sword/shield key on upgrade; the chest's equipment fields are emptied
either way), drain every item into the inventory while tallying by key,
and add the chest's gold to the game's.  Items are appended to the
inventory, modelling `Game::add_item` (game module, outside the given
sources) from the spec's identity-keyed inventory. -/
def pick_up (c : Chest) (g : Game) : PickUpResult :=
  let swordRes := maybe_upgrade g.player.sword c.sword
  let shieldRes := maybe_upgrade g.player.shield c.shield
  let counts : Key → Int := fun _ => 0
  let counts := if swordRes.2.2 then setCount counts Key.sword 1 else counts
  let counts := if shieldRes.2.2 then setCount counts Key.shield 1 else counts
  let counts := c.items.foldl (fun m it => bumpCount m it.key) counts
  { counts := counts
  , gold := c.gold
  , chest := { items := [], sword := swordRes.2.1, shield := shieldRes.2.1, gold := c.gold }
  , game := { g with
                gold := g.gold + c.gold
                inventory := g.inventory ++ c.items
                player := { g.player with sword := swordRes.1, shield := shieldRes.1 } } }

/-- `Chest::extend` in `chest.rs`: keep the best of each equipment
(upgrade-only, the loser is dropped), append the other chest's items,
and add its gold. -/
def Chest.extend (c other : Chest) : Chest :=
  { items := c.items ++ other.items
  , sword := (maybe_upgrade c.sword other.sword).1
  , shield := (maybe_upgrade c.shield other.shield).1
  , gold := c.gold + other.gold }

/-- The spec's description of merged equipment, used to compare
`Chest.extend` against the spec: per category, the strictly
higher-level piece of the two inputs (the first input's piece when
levels are equal). -/
def higherOf : Option Equipment → Option Equipment → Option Equipment
  | none, none => none
  | some a, none => some a
  | none, some b => some b
  | some a, some b => if a.level < b.level then some b else some a

/-- Iterated ring draws: apply `random_ring` once per choice in the
list, threading the pool; returns the drawn results in order and the
final pool. -/
def drawSeq (choices : List Nat) (pool : List RingItem) :
    List (Option RingItem) × List RingItem :=
  match choices with
  | [] => ([], pool)
  | c :: cs =>
      let first := random_ring c pool
      let rest := drawSeq cs first.2
      (first.1 :: rest.1, rest.2)

/-- A fixture oracle: every chance roll fails, every choice index is 0,
and gold scales as ten times the input. -/
def oracleOff : Oracle :=
  { goldRoll1 := false, goldRoll2 := false, equipRoll1 := false
  , equipRoll2 := false, ringRoll1 := false, ringRoll2 := false
  , itemRoll := fun _ => false, itemChoice := fun _ => 0
  , equipChoice := 0, ringChoice := 0, goldGained := fun n => 10 * n }

/-- A fixture player: level 1, no modifiers, nothing equipped. -/
def playerBase : Player :=
  { level := 1, roundedLevel := 1, enemiesEvaded := false
  , doubleChests := false, sword := none, shield := none
  , left_ring := none, right_ring := none }

/-- A fixture game: base player, no gold, empty inventory, empty ring
pool, distance 1. -/
def gameBase : Game :=
  { player := playerBase, gold := 0, inventory := []
  , ring_pool := [], distance := 1 }

/-- The candidate slot (`other`) is always emptied by `maybe_upgrade`,
whether or not the upgrade happened (`Option::take`). -/
lemma maybe_upgrade_other (a b : Option Equipment) :
    (maybe_upgrade a b).2.1 = none := by
  cases b with
  | none => rfl
  | some e =>
      simp only [maybe_upgrade]
      split <;> rfl

/-- `maybe_upgrade` keeps, per category, exactly the strictly
higher-level piece described by the spec (`higherOf`). -/
lemma maybe_upgrade_higherOf (a b : Option Equipment) :
    (maybe_upgrade a b).1 = higherOf a b := by
  cases a with
  | none => cases b <;> simp [maybe_upgrade, higherOf, Equipment.is_upgrade_from]
  | some c =>
      cases b with
      | none => simp [maybe_upgrade, higherOf]
      | some e =>
          by_cases h : c.level < e.level <;>
            simp [maybe_upgrade, higherOf, Equipment.is_upgrade_from, h]

/-- Per-key counts are additive over list append. -/
lemma countKey_append (l1 l2 : List Item) (k : Key) :
    countKey (l1 ++ l2) k = countKey l1 k + countKey l2 k := by
  simp [countKey, List.filter_append]

/-- C3: `maybe_upgrade` replaces `current` with the candidate and
returns `true` exactly when the candidate is present and either nothing
is currently held or the candidate's level strictly exceeds the current
level; when it returns `false` (in particular at equal levels) the
current equipment is left untouched. -/
theorem chest_C3 (cur cand : Option Equipment) :
    ((maybe_upgrade cur cand).2.2 = true ↔
      ∃ e, cand = some e ∧
        (cur = none ∨ ∃ c, cur = some c ∧ c.level < e.level))
    ∧ ((maybe_upgrade cur cand).2.2 = true → (maybe_upgrade cur cand).1 = cand)
    ∧ ((maybe_upgrade cur cand).2.2 = false → (maybe_upgrade cur cand).1 = cur) := by
  cases cur with
  | none => cases cand <;> simp [maybe_upgrade, Equipment.is_upgrade_from]
  | some c =>
      cases cand with
      | none => simp [maybe_upgrade]
      | some e =>
          by_cases h : c.level < e.level <;>
            simp [maybe_upgrade, Equipment.is_upgrade_from, h]

/-- C3 witness: a level-5 sword replaces a level-1 sword. -/
theorem chest_C3_witness :
    (maybe_upgrade (some (Equipment.sword 1)) (some (Equipment.sword 5))).1
      = some (Equipment.sword 5) :=
  (chest_C3 (some (Equipment.sword 1)) (some (Equipment.sword 5))).2.1 (by decide)

/-- C2 counterexample: after `pick_up`, the chest's gold field is not
zero — `pick_up` adds the gold to the game but never clears the field
(`game.gold += self.gold` leaves `self.gold` as is). -/
theorem chest_C2_counterexample :
    (pick_up { items := [], sword := none, shield := none, gold := 5 }
        gameBase).chest.gold = 5 := by
  rfl

/-- C2 amended: after `pick_up` the chest's item list is empty and both
equipment fields are absent (emptied by the upgrade check whether or not
the upgrade occurred), but the gold field keeps its pre-pickup value; the
gold amount has nevertheless been added to the recipient. -/
theorem chest_C2 (c : Chest) (g : Game) :
    (pick_up c g).chest.items = []
    ∧ (pick_up c g).chest.sword = none
    ∧ (pick_up c g).chest.shield = none
    ∧ (pick_up c g).chest.gold = c.gold := by
  refine ⟨rfl, ?_, ?_, rfl⟩
  · exact maybe_upgrade_other g.player.sword c.sword
  · exact maybe_upgrade_other g.player.shield c.shield

/-- C5: pickup is a conservation law — the recipient's gold afterwards
is the total gold across recipient and chest beforehand, and for every
identity key the recipient's inventory count afterwards is its count
beforehand plus that key's count in the chest. -/
theorem chest_C5 (c : Chest) (g : Game) :
    (pick_up c g).game.gold = g.gold + c.gold
    ∧ ∀ k, countKey (pick_up c g).game.inventory k
        = countKey g.inventory k + countKey c.items k := by
  exact ⟨rfl, fun k => countKey_append g.inventory c.items k⟩

/-- C4: merging with `extend` sums the gold, takes the multiset union
of the items (counts add per key, so neither loser equipment piece is
re-added as an item), and keeps per category the strictly higher-level
equipment piece of the two inputs. -/
theorem chest_C4 (a b : Chest) :
    (Chest.extend a b).gold = a.gold + b.gold
    ∧ (∀ k, countKey (Chest.extend a b).items k
        = countKey a.items k + countKey b.items k)
    ∧ (Chest.extend a b).sword = higherOf a.sword b.sword
    ∧ (Chest.extend a b).shield = higherOf a.shield b.shield := by
  refine ⟨rfl, ?_, ?_, ?_⟩
  · exact fun k => countKey_append a.items b.items k
  · exact maybe_upgrade_higherOf a.sword b.sword
  · exact maybe_upgrade_higherOf a.shield b.shield

/-- C8: defeat extraction (`drop`) always returns a chest whose gold is
the player's prior gold, leaving the game's gold zero; the player's
sword, shield and both ring slots become absent, the equipment moves to
the chest's sword/shield fields, and any equipped rings are appended as
items after the drained inventory, which is left empty. -/
theorem chest_C8 (g : Game) :
    (Chest.drop g).1.gold = g.gold
    ∧ (Chest.drop g).2.gold = 0
    ∧ (Chest.drop g).2.player.sword = none
    ∧ (Chest.drop g).2.player.shield = none
    ∧ (Chest.drop g).2.player.left_ring = none
    ∧ (Chest.drop g).2.player.right_ring = none
    ∧ (Chest.drop g).1.sword = g.player.sword
    ∧ (Chest.drop g).1.shield = g.player.shield
    ∧ (Chest.drop g).1.items = g.inventory ++ ringItemsOf g.player
    ∧ (Chest.drop g).2.inventory = [] :=
  ⟨rfl, rfl, rfl, rfl, rfl, rfl, rfl, rfl, rfl, rfl⟩

/-- C9: generation returns absence immediately when rewards are
suppressed (evade ring) or when the player's level exceeds the distance
magnitude plus 10, regardless of every roll. -/
theorem chest_C9 (o : Oracle) (g : Game)
    (h : g.player.enemiesEvaded = true ∨ g.distance + 10 < g.player.level) :
    (generate o g).1 = none := by
  rcases h with h | h
  · simp [generate, h]
  · by_cases he : g.player.enemiesEvaded = true <;> simp [generate, he, h]

/-- C9 witness: a suppressed-rewards game yields no chest. -/
theorem chest_C9_witness :
    (generate oracleOff
        { gameBase with player := { playerBase with enemiesEvaded := true } }).1
      = none :=
  chest_C9 oracleOff
    { gameBase with player := { playerBase with enemiesEvaded := true } }
    (Or.inl rfl)

/-- Every entry of the weighted equipment table holds at least one
piece of equipment. -/
lemma random_equipment_isSome (d : Int) (k : Nat) :
    (random_equipment d k).1.isSome = true
    ∨ (random_equipment d k).2.isSome = true := by
  unfold random_equipment
  split <;> simp

/-- If some attempt of the item loop succeeded, the loop produced at
least one item. -/
lemma itemPhase_ne_nil {o : Oracle} {lvl : Int} {n : Nat}
    (h : anyItem o n = true) : itemPhase o lvl n ≠ [] := by
  induction n with
  | zero => simp [anyItem] at h
  | succ n ih =>
      rw [anyItem, Bool.or_eq_true] at h
      rw [itemPhase]
      intro hc
      rcases List.append_eq_nil.mp hc with ⟨h1, h2⟩
      rcases h with h | h
      · exact ih h h1
      · simp [h] at h2

/-- The ring branch on an empty pool: no item, flag cleared, pool still
empty. -/
lemma ringPhase_empty (k : Nat) (b : Bool) :
    ringPhase k [] b = ([], false, []) := by
  cases b <;> simp [ringPhase, random_ring]

/-- If the ring branch left the ring-found flag set, it put a ring item
into the chest. -/
lemma ringPhase_flag {k : Nat} {pool : List RingItem} {b : Bool}
    (h : (ringPhase k pool b).2.1 = true) : (ringPhase k pool b).1 ≠ [] := by
  cases b with
  | false => simp [ringPhase] at h
  | true =>
      cases pool with
      | nil => simp [ringPhase, random_ring] at h
      | cons x xs => simp [ringPhase, random_ring]

/-- `random_ring` on a non-empty pool draws some member and erases it. -/
lemma random_ring_cons (k : Nat) (x : RingItem) (xs : List RingItem) :
    ∃ r, r ∈ x :: xs ∧ random_ring k (x :: xs) = (some r, (x :: xs).erase r) :=
  ⟨_, List.get_mem _ _ _, rfl⟩

/-- When every item roll fails, the item flag is false. -/
lemma anyItem_false {o : Oracle} (h : ∀ i, o.itemRoll i = false) (n : Nat) :
    anyItem o n = false := by
  induction n with
  | zero => rfl
  | succ n ih => rw [anyItem, ih, h n]; rfl

/-- Any chest the generation body returns is non-empty in some
dimension, provided the gold scaling is positive. -/
lemma assemble_nonempty {o : Oracle} {g : Game} {bg be br : Bool} {n : Nat}
    (hg : 0 < o.goldGained (g.player.level + g.distance))
    {c : Chest} (h : (assemble o g bg be br n).1 = some c) :
    c.items ≠ [] ∨ 0 < c.gold ∨ c.sword.isSome = true ∨ c.shield.isSome = true := by
  simp only [assemble] at h
  split at h
  case isFalse => simp at h
  case isTrue hcond =>
      rw [Option.some.injEq] at h
      subst h
      simp only [Bool.or_eq_true] at hcond
      rcases hcond with ((hb | hb) | hb) | hb
      · right; left
        simpa [assembleChest, hb] using hg
      · rcases random_equipment_isSome g.distance o.equipChoice with hs | hs
        · right; right; left
          simpa [assembleChest, hb] using hs
        · right; right; right
          simpa [assembleChest, hb] using hs
      · left
        simp only [assembleChest]
        intro hc
        exact itemPhase_ne_nil hb (List.append_eq_nil.mp hc).2
      · left
        simp only [assembleChest]
        intro hc
        exact ringPhase_flag hb (List.append_eq_nil.mp hc).1

/-- C1 counterexample: with only the gold roll succeeding, the
battle-loot variant zeroes the gold and hands back `Some` of a chest
that is empty in every dimension — not absence. -/
theorem chest_C1_counterexample :
    (battle_loot { oracleOff with goldRoll1 := true } gameBase).1
      = some { items := [], sword := none, shield := none, gold := 0 } := by
  rfl

/-- C1 amended: every container returned by `generate` is non-empty in
at least one dimension (given that the gold scaling is positive at the
generation input, as it is outside the given sources); the battle-loot
variant, however, can return an all-empty container when only the gold
roll succeeded, since it zeroes the gold after generation. -/
theorem chest_C1 (o : Oracle) (g : Game)
    (hg : 0 < o.goldGained (g.player.level + g.distance))
    (c : Chest) (h : (generate o g).1 = some c) :
    c.items ≠ [] ∨ 0 < c.gold ∨ c.sword.isSome = true ∨ c.shield.isSome = true := by
  by_cases he : g.player.enemiesEvaded = true
  · simp [generate, he] at h
  · by_cases hl : g.distance + 10 < g.player.level
    · simp [generate, he, hl] at h
    · by_cases hd : g.player.doubleChests = true
      · rw [generate, if_neg (by simp [he]), if_neg hl, if_pos (by simp [hd])] at h
        exact assemble_nonempty hg h
      · rw [generate, if_neg (by simp [he]), if_neg hl, if_neg (by simp [hd])] at h
        exact assemble_nonempty hg h

/-- C1 witness: a gold-only generated chest is non-empty (its gold is
positive). -/
theorem chest_C1_witness :
    ({ items := [], sword := none, shield := none, gold := 20 } : Chest).items ≠ []
    ∨ 0 < ({ items := [], sword := none, shield := none, gold := 20 } : Chest).gold
    ∨ ({ items := [], sword := none, shield := none, gold := 20 } : Chest).sword.isSome = true
    ∨ ({ items := [], sword := none, shield := none, gold := 20 } : Chest).shield.isSome = true :=
  chest_C1 { oracleOff with goldRoll1 := true } gameBase (by decide)
    { items := [], sword := none, shield := none, gold := 20 } (by rfl)

/-- C6: with an empty ring pool, generation behaves exactly as if the
ring roll had failed (the ring-found flag is retroactively cleared and
the attempt does not count as having found a ring); in particular, when
no other category's rolls succeed either, the result is absence rather
than a chest reporting a ring reward with no ring attached. -/
theorem chest_C6 (o : Oracle) (g : Game) (hpool : g.ring_pool = []) :
    generate o g
      = generate { o with ringRoll1 := false, ringRoll2 := false } g
    ∧ (o.goldRoll1 = false → o.goldRoll2 = false → o.equipRoll1 = false →
        o.equipRoll2 = false → (∀ i, o.itemRoll i = false) →
        (generate o g).1 = none) := by
  constructor
  · by_cases he : g.player.enemiesEvaded = true
    · simp [generate, he]
    · by_cases hl : g.distance + 10 < g.player.level
      · simp [generate, he, hl]
      · by_cases hd : g.player.doubleChests = true <;>
          simp [generate, he, hl, hd, assemble, assembleChest, hpool,
            ringPhase_empty, anyItem, itemPhase]
  · intro h1 h2 h3 h4 h5
    by_cases he : g.player.enemiesEvaded = true
    · simp [generate, he]
    · by_cases hl : g.distance + 10 < g.player.level
      · simp [generate, he, hl]
      · by_cases hd : g.player.doubleChests = true <;>
          simp [generate, he, hl, hd, assemble, hpool, ringPhase_empty,
            anyItem_false h5, h1, h2, h3, h4]

/-- C6 witness: with an empty pool and every roll failing, generation
agrees with the ring-roll-cleared oracle and returns absence. -/
theorem chest_C6_witness :
    (generate oracleOff gameBase
        = generate { oracleOff with ringRoll1 := false, ringRoll2 := false }
            gameBase)
    ∧ (generate oracleOff gameBase).1 = none :=
  ⟨(chest_C6 oracleOff gameBase rfl).1,
   (chest_C6 oracleOff gameBase rfl).2 rfl rfl rfl rfl (fun _ => rfl)⟩

/-- The generation body leaves the pool unchanged when it returns
absence, and any ring it removes from the pool is in the returned
chest's items. -/
lemma assemble_pool {o : Oracle} {g : Game} {bg be br : Bool} {n : Nat} :
    ((assemble o g bg be br n).1 = none →
        (assemble o g bg be br n).2.ring_pool = g.ring_pool)
    ∧ ∀ r, r ∈ g.ring_pool → r ∉ (assemble o g bg be br n).2.ring_pool →
        ∃ c, (assemble o g bg be br n).1 = some c ∧ Item.ring r ∈ c.items := by
  cases br with
  | false =>
      constructor
      · intro _
        rfl
      · intro r hr hnr
        exact absurd hr (by simpa [assemble, ringPhase] using hnr)
  | true =>
      cases hp : g.ring_pool with
      | nil =>
          constructor
          · intro _
            simp [assemble, hp, ringPhase_empty]
          · intro r hr hnr
            simp at hr
      | cons x xs =>
          obtain ⟨r0, hr0mem, hr0eq⟩ := random_ring_cons o.ringChoice x xs
          have hflag : (ringPhase o.ringChoice g.ring_pool true).2.1 = true := by
            simp [ringPhase, hp, hr0eq]
          have hsome : (assemble o g bg be true n).1
              = some (assembleChest o g bg be true n) := by
            simp [assemble, hflag]
          have hpool2 : (assemble o g bg be true n).2.ring_pool
              = (x :: xs).erase r0 := by
            simp [assemble, ringPhase, hp, hr0eq]
          constructor
          · intro hnone
            rw [hsome] at hnone
            exact absurd hnone (by simp)
          · intro r hr hnr
            rw [hpool2] at hnr
            have hrr : r = r0 := by
              by_contra hne
              exact hnr ((List.mem_erase_of_ne hne).mpr hr)
            subst hrr
            refine ⟨assembleChest o g bg be true n, hsome, ?_⟩
            simp [assembleChest, ringPhase, hp, hr0eq]

/-- C10: whenever generation returns absence the ring pool is left
unchanged, and a ring leaves the pool only in executions whose returned
chest contains that ring among its items. -/
theorem chest_C10 (o : Oracle) (g : Game) :
    ((generate o g).1 = none → (generate o g).2.ring_pool = g.ring_pool)
    ∧ ∀ r, r ∈ g.ring_pool → r ∉ (generate o g).2.ring_pool →
        ∃ c, (generate o g).1 = some c ∧ Item.ring r ∈ c.items := by
  by_cases he : g.player.enemiesEvaded = true
  · have hgen : generate o g = (none, g) := by simp [generate, he]
    rw [hgen]
    exact ⟨fun _ => rfl, fun r hr hnr => absurd hr hnr⟩
  · by_cases hl : g.distance + 10 < g.player.level
    · have hgen : generate o g = (none, g) := by simp [generate, he, hl]
      rw [hgen]
      exact ⟨fun _ => rfl, fun r hr hnr => absurd hr hnr⟩
    · by_cases hd : g.player.doubleChests = true
      · have hgen : generate o g
            = assemble o g (o.goldRoll1 || o.goldRoll2)
                (o.equipRoll1 || o.equipRoll2) (o.ringRoll1 || o.ringRoll2) 6 := by
          rw [generate, if_neg he, if_neg hl, if_pos hd]
        rw [hgen]
        exact assemble_pool
      · have hgen : generate o g
            = assemble o g o.goldRoll1 o.equipRoll1 o.ringRoll1 3 := by
          rw [generate, if_neg he, if_neg hl, if_neg hd]
        rw [hgen]
        exact assemble_pool

/-- C10 witness: generating with the ring roll against a one-ring pool
removes that ring and returns a chest holding it. -/
theorem chest_C10_witness :
    ∃ c, (generate { oracleOff with ringRoll1 := true }
            { gameBase with ring_pool := [⟨0⟩] }).1 = some c
      ∧ Item.ring ⟨0⟩ ∈ c.items :=
  (chest_C10 { oracleOff with ringRoll1 := true }
      { gameBase with ring_pool := [⟨0⟩] }).2 ⟨0⟩ (by decide) (by decide)

/-- Draws from an empty pool return absence indefinitely and leave the
pool empty. -/
lemma drawSeq_nil_pool (cs : List Nat) :
    drawSeq cs [] = (cs.map fun _ => (none : Option RingItem), []) := by
  induction cs with
  | nil => rfl
  | cons c cs ih => simp [drawSeq, random_ring, ih]

/-- Two rings with equal kind are equal (identity is by kind). -/
lemma ringItem_kind_inj {a b : RingItem} (h : a.kind = b.kind) : a = b := by
  cases a
  cases b
  simpa using h

/-- C7: drawing from a duplicate-free pool once per element always
returns a ring, the drawn rings are pairwise distinct in kind and all
come from the pool, the pool ends empty, and every further draw returns
absence indefinitely. -/
theorem chest_C7 (pool : List RingItem) (hnd : pool.Nodup) (cs : List Nat)
    (hlen : cs.length = pool.length) :
    ∃ rs : List RingItem,
      (drawSeq cs pool).1 = rs.map some
      ∧ rs.length = pool.length
      ∧ (rs.map RingItem.kind).Nodup
      ∧ (∀ r ∈ rs, r ∈ pool)
      ∧ (drawSeq cs pool).2 = []
      ∧ ∀ cs2, (drawSeq cs2 (drawSeq cs pool).2).1
          = cs2.map fun _ => (none : Option RingItem) := by
  induction cs generalizing pool with
  | nil =>
      have hp : pool = [] := List.length_eq_zero.mp hlen.symm
      subst hp
      exact ⟨[], rfl, rfl, List.nodup_nil, by simp, rfl,
        fun cs2 => by simp [drawSeq, drawSeq_nil_pool]⟩
  | cons c cs ih =>
      cases pool with
      | nil => simp at hlen
      | cons x xs =>
          obtain ⟨r0, hmem, heq⟩ := random_ring_cons c x xs
          have hnd' : ((x :: xs).erase r0).Nodup := hnd.erase r0
          have hlen' : cs.length = ((x :: xs).erase r0).length := by
            rw [List.length_erase_of_mem hmem]
            simp at hlen
            simp [hlen]
          obtain ⟨rs, h1, h2, h3, h4, h5, h6⟩ := ih ((x :: xs).erase r0) hnd' hlen'
          have hstep : drawSeq (c :: cs) (x :: xs)
              = (some r0 :: (drawSeq cs ((x :: xs).erase r0)).1,
                 (drawSeq cs ((x :: xs).erase r0)).2) := by
            simp [drawSeq, heq]
          refine ⟨r0 :: rs, ?_, ?_, ?_, ?_, ?_, ?_⟩
          · rw [hstep]
            simp [h1]
          · have hle : ((x :: xs).erase r0).length = xs.length := by
              rw [List.length_erase_of_mem hmem]
              simp
            simp only [List.length_cons]
            rw [h2, hle]
          · rw [List.map_cons, List.nodup_cons]
            refine ⟨?_, h3⟩
            intro hk
            obtain ⟨r1, hr1, hk1⟩ := List.mem_map.mp hk
            have hr0rs : r0 ∈ rs := ringItem_kind_inj hk1 ▸ hr1
            have hmem2 : r0 ∈ (x :: xs).erase r0 := h4 r0 hr0rs
            rw [hnd.mem_erase_iff] at hmem2
            exact hmem2.1 rfl
          · intro r hr
            rcases List.mem_cons.mp hr with hr | hr
            · exact hr ▸ hmem
            · exact List.erase_subset _ _ (h4 r hr)
          · rw [hstep]
            exact h5
          · intro cs2
            rw [hstep]
            exact h6 cs2

/-- C7 witness: a pool of three distinct rings yields three distinct
rings in three draws, ends empty, and then yields absence forever. -/
theorem chest_C7_witness :
    ∃ rs : List RingItem,
      (drawSeq [0, 0, 0] [⟨0⟩, ⟨1⟩, ⟨2⟩]).1 = rs.map some
      ∧ rs.length = ([⟨0⟩, ⟨1⟩, ⟨2⟩] : List RingItem).length
      ∧ (rs.map RingItem.kind).Nodup
      ∧ (∀ r ∈ rs, r ∈ ([⟨0⟩, ⟨1⟩, ⟨2⟩] : List RingItem))
      ∧ (drawSeq [0, 0, 0] [⟨0⟩, ⟨1⟩, ⟨2⟩]).2 = []
      ∧ ∀ cs2, (drawSeq cs2 (drawSeq [0, 0, 0] [⟨0⟩, ⟨1⟩, ⟨2⟩]).2).1
          = cs2.map fun _ => (none : Option RingItem) :=
  chest_C7 [⟨0⟩, ⟨1⟩, ⟨2⟩] (by decide) [0, 0, 0] (by decide)
